import Mathlib

/-!
Verification of the diario-oficial-automation repository.

The two Python scripts `script_diario_oficial.py` and `scan_ultima_nomeacao.py`
are shallowly embedded below.  Strings are modelled as `List Char` (Python
`str`), byte payloads as `List Nat`, and code that can raise as
`Except PyErr`.  Machine-level collaborators (HTTP, pdfplumber, SMTP,
the filesystem) are passed in as explicit inputs.
-/

/-! ## Python string primitives -/

/-- Model of Python `str.lower` restricted to the character repertoire the
scripts manipulate: ASCII letters and the Latin-1 uppercase letters
(`À`..`Þ` except `×`).  Other characters are unchanged. -/
def pyToLower (c : Char) : Char :=
  let n := c.toNat
  if 65 ≤ n ∧ n ≤ 90 then Char.ofNat (n + 32)
  else if 192 ≤ n ∧ n ≤ 222 ∧ n ≠ 215 then Char.ofNat (n + 32)
  else c

/-- Lowercase an entire string (Python `s.lower()`). -/
def lowList (l : List Char) : List Char := l.map pyToLower

/-- Model of Python `\s` / `str.strip` whitespace (ASCII whitespace). -/
def isPySpace (c : Char) : Bool :=
  c == ' ' || c == '\t' || c == '\n' || c == '\r' || c == '\x0b' || c == '\x0c'

/-- Model of Python `\w` (word character) for the text in scope:
ASCII alphanumerics, underscore and Latin-1 letters. -/
def isWordChar (c : Char) : Bool :=
  let n := c.toNat
  (48 ≤ n && n ≤ 57) || (65 ≤ n && n ≤ 90) || (97 ≤ n && n ≤ 122) || n == 95 ||
    (192 ≤ n && n ≤ 255 && n != 215 && n != 247)

/-- Model of Python `needle in hay` (substring test). -/
def containsSub (needle : List Char) : List Char → Bool
  | [] => needle.isEmpty
  | c :: t => needle.isPrefixOf (c :: t) || containsSub needle t

/-- Strict lexicographic order on strings by code point
(Python `str.__lt__`). -/
def strLt : List Char → List Char → Bool
  | [], [] => false
  | [], _ :: _ => true
  | _ :: _, [] => false
  | a :: s, b :: t =>
    if a.toNat < b.toNat then true
    else if b.toNat < a.toNat then false
    else strLt s t

/-- Lexicographic `≤` on strings by code point (Python `str.__le__`). -/
def strLe : List Char → List Char → Bool
  | [], _ => true
  | _ :: _, [] => false
  | a :: s, b :: t =>
    if a.toNat < b.toNat then true
    else if b.toNat < a.toNat then false
    else strLe s t

/-- `strLe` as a relation, for use with `List.insertionSort`. -/
def strLeR (u v : List Char) : Prop := strLe u v = true

instance : DecidableRel strLeR := fun u v =>
  inferInstanceAs (Decidable (strLe u v = true))

/-- Recursion core of `pyReplace`.  `fuel` only forces structural
termination; every step consumes at least one character, so any
`fuel ≥ s.length` gives the untruncated scan. -/
def pyReplaceAux (old rep : List Char) : Nat → List Char → List Char
  | _, [] => []
  | 0, s => s
  | fuel + 1, c :: t =>
    if old ≠ [] ∧ old.isPrefixOf (c :: t) then
      rep ++ pyReplaceAux old rep fuel (t.drop (old.length - 1))
    else
      c :: pyReplaceAux old rep fuel t

/-- Model of Python `s.replace(old, rep)` for a non-empty pattern `old`:
scans left to right, replaces non-overlapping occurrences and resumes
scanning after the inserted replacement.  (The scripts only call this with
non-empty literal patterns; for `old = []` this is the identity.) -/
def pyReplace (old rep s : List Char) : List Char :=
  pyReplaceAux old rep s.length s

/-- Model of Python `s.strip()`. -/
def pyStrip (s : List Char) : List Char :=
  ((s.dropWhile isPySpace).reverse.dropWhile isPySpace).reverse

/-! ## scan_ultima_nomeacao.normalize_html_for_pdf_search (Link Normalizer) -/

/-- Model of `normalize_html_for_pdf_search` (scan_ultima_nomeacao.py):
`raw.replace("\\u002F", "/").replace("\\u002f", "/").replace("\\/", "/")`. -/
def normalize_html_for_pdf_search (raw : List Char) : List Char :=
  pyReplace "\\/".data "/".data
    (pyReplace "\\u002f".data "/".data
      (pyReplace "\\u002F".data "/".data raw))

/-! ## Error model -/

/-- Exceptions raised by the scripts: `requests` HTTP errors
(`raise_for_status`), the validation `RuntimeError`s (the specification's
`NotADocumentError`), other `RuntimeError`s, `IndexError` and the
`ValueError` raised by `datetime` on out-of-range components. -/
inductive PyErr where
  | httpError
  | notADocument
  | runtimeError
  | indexError
  | valueError
deriving DecidableEq, Repr

instance {ε α : Type _} [DecidableEq ε] [DecidableEq α] : DecidableEq (Except ε α) := fun
  | .error e, .error f =>
    if h : e = f then isTrue (h ▸ rfl) else isFalse fun c => h (Except.error.inj c)
  | .error _, .ok _ => isFalse fun c => Except.noConfusion c
  | .ok _, .error _ => isFalse fun c => Except.noConfusion c
  | .ok a, .ok b =>
    if h : a = b then isTrue (h ▸ rfl) else isFalse fun c => h (Except.ok.inj c)

/-! ## datetime -/

/-- Model of a Python `datetime.datetime` value (naive, second precision,
as produced by `datetime(y, mo, d, hh, mm, ss)`). -/
structure PyDateTime where
  year : Nat
  month : Nat
  day : Nat
  hour : Nat
  minute : Nat
  second : Nat
deriving DecidableEq, Repr

/-- `datetime.min`. -/
def dtMin : PyDateTime := ⟨1, 1, 1, 0, 0, 0⟩

def isLeap (y : Nat) : Bool := y % 4 == 0 && (y % 100 != 0 || y % 400 == 0)

def daysInMonth (y m : Nat) : Nat :=
  if m = 2 then (if isLeap y then 29 else 28)
  else if m = 4 ∨ m = 6 ∨ m = 9 ∨ m = 11 then 30
  else 31

/-- Model of the `datetime(y, mo, d, hh, mm, ss)` constructor: raises
`ValueError` when a component is out of range. -/
def mkDatetime (y mo d hh mi ss : Nat) : Except PyErr PyDateTime :=
  if 1 ≤ y ∧ y ≤ 9999 ∧ 1 ≤ mo ∧ mo ≤ 12 ∧ 1 ≤ d ∧ d ≤ daysInMonth y mo ∧
      hh ≤ 23 ∧ mi ≤ 59 ∧ ss ≤ 59 then
    .ok ⟨y, mo, d, hh, mi, ss⟩
  else .error .valueError

/-- Numeric key embedding the datetime comparison order: every component
below the year of a constructible Python datetime is `< 100`, so comparing
these keys agrees with Python's componentwise lexicographic comparison. -/
def dtKey (d : PyDateTime) : Nat :=
  ((((d.year * 100 + d.month) * 100 + d.day) * 100 + d.hour) * 100 +
      d.minute) * 100 + d.second

/-! ## Timestamp extraction from hrefs -/

/-- Read exactly `n` ASCII digits, returning their value and the rest. -/
def readDigitsAux : Nat → Nat → List Char → Option (Nat × List Char)
  | 0, acc, l => some (acc, l)
  | _ + 1, _, [] => none
  | n + 1, acc, c :: t =>
    if c.isDigit then readDigitsAux n (acc * 10 + (c.toNat - 48)) t else none

def readDigits (n : Nat) (l : List Char) : Option (Nat × List Char) :=
  readDigitsAux n 0 l

/-- Match a literal (case-sensitive), returning the rest of the input. -/
def expectLit (pat l : List Char) : Option (List Char) :=
  if pat.isPrefixOf l then some (l.drop pat.length) else none

/-- Attempt to match the regex `(\d{4})-(\d{2})-(\d{2})-(\d{2})-(\d{2})-(\d{2})\.pdf`
anchored at the head of `l`, returning the six captured numbers. -/
def tsPatternAt (l : List Char) : Option (Nat × Nat × Nat × Nat × Nat × Nat) := do
  let (y, l) ← readDigits 4 l
  let l ← expectLit "-".data l
  let (mo, l) ← readDigits 2 l
  let l ← expectLit "-".data l
  let (d, l) ← readDigits 2 l
  let l ← expectLit "-".data l
  let (hh, l) ← readDigits 2 l
  let l ← expectLit "-".data l
  let (mi, l) ← readDigits 2 l
  let l ← expectLit "-".data l
  let (ss, l) ← readDigits 2 l
  let _ ← expectLit ".pdf".data l
  pure (y, mo, d, hh, mi, ss)

/-- Model of `parse_timestamp_from_href` (script_diario_oficial.py) and the
identical `parse_timestamp_from_url` (scan_ultima_nomeacao.py): `re.search`
for the timestamp pattern (leftmost occurrence), then
`datetime(*map(int, groups))`, which can raise `ValueError`. -/
def parse_timestamp_from_href : List Char → Except PyErr (Option PyDateTime)
  | [] => .ok none
  | c :: t =>
    match tsPatternAt (c :: t) with
    | some (y, mo, d, hh, mi, ss) => (mkDatetime y mo d hh mi ss).map some
    | none => parse_timestamp_from_href t

/-! ## escolher_link_mais_recente (Recency Resolver) -/

/-- A candidate, as built by the loop in `escolher_link_mais_recente`:
`(parse_timestamp_from_href(h), h)`. -/
def Cand := Option PyDateTime × List Char

instance : DecidableEq Cand := inferInstanceAs (DecidableEq (Option PyDateTime × List Char))

/-- Comparison of the Python sort keys
`(ts is None, ts or datetime.min, href)` for two candidates. -/
def candLe (c d : Cand) : Bool :=
  if c.1.isNone = d.1.isNone then
    let t1 := dtKey (c.1.getD dtMin)
    let t2 := dtKey (d.1.getD dtMin)
    if t1 = t2 then strLe c.2 d.2 else decide (t1 < t2)
  else decide (c.1.isNone = false)

/-- `candLe` as a relation, for use with `List.insertionSort`. -/
def candLeR (c d : Cand) : Prop := candLe c d = true

instance : DecidableRel candLeR := fun c d =>
  inferInstanceAs (Decidable (candLe c d = true))

/-- The candidate-building loop of `escolher_link_mais_recente`; a
`ValueError` from `datetime` propagates. -/
def build_candidatos : List (List Char) → Except PyErr (List Cand)
  | [] => .ok []
  | h :: t =>
    match parse_timestamp_from_href h with
    | .error e => .error e
    | .ok ts =>
      match build_candidatos t with
      | .error e => .error e
      | .ok rest => .ok ((ts, h) :: rest)

/-- Model of `escolher_link_mais_recente` (script_diario_oficial.py):
sort the candidates ascending by `(ts is None, ts or datetime.min, href)`,
return the last sorted candidate that has a timestamp; if none has a
timestamp fall back to `hrefs[-1]` (which raises `IndexError` on `[]`). -/
def escolher_link_mais_recente (hrefs : List (List Char)) : Except PyErr (List Char) :=
  match build_candidatos hrefs with
  | .error e => .error e
  | .ok candidatos =>
    match ((List.insertionSort candLeR candidatos).filter (fun c => c.1.isSome)).getLast? with
    | some c => .ok c.2
    | none =>
      match hrefs.getLast? with
      | some h => .ok h
      | none => .error .indexError

/-! ## extrair_entre / extract_between (Clause Matcher span) -/

/-- Indices of `text` (already lowercased) at which the lowercased pattern
occurs, in ascending order. -/
def occIdxs (patLow lowT : List Char) : List Nat :=
  (List.range (lowT.length + 1)).filter (fun i => patLow.isPrefixOf (lowT.drop i))

/-- Model of `extract_between` (scan_ultima_nomeacao.py) and the identical
`extrair_entre` (script_diario_oficial.py):
`re.search(re.escape(start) + ".*?" + re.escape(fin), text, IGNORECASE | DOTALL)`.
The match starts at the leftmost case-insensitive occurrence of `start`
that is followed (at or after its end) by an occurrence of `fin`, and ends
at the earliest such occurrence of `fin` (lazy `.*?`). -/
def extract_between (text start fin : List Char) : Option (List Char) :=
  let lowT := lowList text
  let ss := occIdxs (lowList start) lowT
  let es := occIdxs (lowList fin) lowT
  match ss.find? (fun i => es.any (fun j => i + start.length ≤ j)) with
  | none => none
  | some i =>
    match (es.filter (fun j => i + start.length ≤ j)).head? with
    | some j => some ((text.drop i).take (j + fin.length - i))
    | none => none

/-- `extrair_entre` (script_diario_oficial.py) is the same routine. -/
def extrair_entre (texto inicio fim : List Char) : Option (List Char) :=
  extract_between texto inicio fim

/-- Model of `contem_concurso_publico` (script_diario_oficial.py):
`re.search("concurso público", texto, IGNORECASE)`, i.e. a
case-insensitive substring test. -/
def contem_concurso_publico (texto : List Char) : Bool :=
  containsSub (lowList "concurso público".data) (lowList texto)

/-! ## baixar_pdf / download_pdf (Document Fetcher) -/

/-- What the binary-fetch collaborator returns for the chosen URL:
HTTP status, the `Content-Type` header (absent modelled as `none`, matching
`r.headers.get("Content-Type")`), and the body bytes. -/
structure HttpResp where
  status : Nat
  contentTypeHeader : Option (List Char)
  content : List Nat
deriving DecidableEq, Repr

/-- Result of a successful `baixar_pdf`: the returned
`(r.content, content_type)` pair plus the bytes written to `destino`. -/
structure FetchResult where
  bytes : List Nat
  content_type : List Char
  written : List Nat
deriving DecidableEq, Repr

/-- The `%PDF` signature bytes. -/
def pdfMagic : List Nat := [37, 80, 68, 70]

/-- Model of `baixar_pdf` (script_diario_oficial.py): `raise_for_status()`
(4xx/5xx raises `HTTPError`), then reject a `text/html` content type, then
reject bytes lacking the `%PDF` signature (both `RuntimeError`s — the
specification's `NotADocumentError`); on success write the bytes to
`destino` and return `(r.content, content_type)`. -/
def baixar_pdf (resp : HttpResp) : Except PyErr FetchResult :=
  if 400 ≤ resp.status then .error .httpError
  else
    let content_type := lowList (resp.contentTypeHeader.getD [])
    if containsSub "text/html".data content_type then .error .notADocument
    else if ¬ pdfMagic.isPrefixOf resp.content then .error .notADocument
    else .ok ⟨resp.content, content_type, resp.content⟩

/-- Model of `download_pdf` (scan_ultima_nomeacao.py): identical
validation, no file write, returns `r.content`. -/
def download_pdf (resp : HttpResp) : Except PyErr (List Nat) :=
  if 400 ≤ resp.status then .error .httpError
  else
    let ct := lowList (resp.contentTypeHeader.getD [])
    if containsSub "text/html".data ct then .error .notADocument
    else if ¬ pdfMagic.isPrefixOf resp.content then .error .notADocument
    else .ok resp.content

/-! ## State persistence (Change Tracker) -/

/-- The persisted state JSON object; `main` reads only the keys
`last_link` and `last_sha256` (absent keys read as `None` via `.get`). -/
structure RunState where
  last_link : Option (List Char)
  last_sha256 : Option (List Char)
deriving DecidableEq, Repr

/-- `load_state()` on a fresh/absent/corrupt state file yields `{}`. -/
def emptyRunState : RunState := ⟨none, none⟩

/-- Model of `load_state` (script_diario_oficial.py).  Its input is the
outcome of reading the state file: `.error` for any exception while
reading or parsing, `.ok none` when the file does not exist, `.ok (some s)`
for a successful parse.  Every failure is swallowed and `{}` returned;
the function itself never raises (it is total). -/
def load_state (disk : Except PyErr (Option RunState)) : RunState :=
  match disk with
  | .error _ => emptyRunState
  | .ok none => emptyRunState
  | .ok (some s) => s

/-! ## main (pipeline of script_diario_oficial.py) -/

/-- Observable side effects of one run of `main`, in order: downloading the
PDF, sending the notification e-mail, persisting the state. -/
inductive Event where
  | fetch
  | email
  | save (st : RunState)
deriving DecidableEq, Repr

/-- The four ways `main` can finish without raising, in the
specification's Change-Tracker vocabulary. -/
inductive Outcome where
  | unchangedLink
  | unchangedContent
  | noMatch
  | notified
deriving DecidableEq, Repr

structure RunResult where
  events : List Event
  outcome : Outcome
deriving DecidableEq, Repr

/-- External collaborators of `main`: the HTTP response for the chosen PDF
URL, the pdfplumber text extraction (`ler_texto_pdf` of the written
bytes), the SHA-256 hex digest function (`hashlib`), and whether
`enviar_email` succeeds (it raises when credentials are missing or SMTP
fails). -/
structure MainDeps where
  resp : HttpResp
  render : List Nat → List Char
  sha : List Nat → List Char
  emailOk : Bool

/-- `link_pdf_completo`: prepend the site host when the href is
site-relative. -/
def link_pdf_completo (link_pdf : List Char) : List Char :=
  if link_pdf.head? = some '/' then "https://www.mprr.mp.br".data ++ link_pdf
  else link_pdf

/-- Model of `main` (script_diario_oficial.py) from the point where the
hrefs have been scraped: raise if no hrefs; select the newest link;
if `SEND_ONLY_IF_NEW` and the URL equals the stored one, stop
(Unchanged-Link, nothing fetched, nothing saved); download and hash;
if `SEND_ONLY_IF_NEW` and the hash equals the stored one, save the current
URL and hash and stop (Unchanged-Content, no e-mail); extract the text,
the `Nomear … Procurador-Geral de Justiça` clause and the
`concurso público` keyword; if `SEND_ONLY_IF_MATCH` and no match, save and
stop without e-mail; otherwise e-mail and then save.  The e-mail subject
and body are pure formatting for the Notifier and are not modelled. -/
def mainRun (sendOnlyIfNew sendOnlyIfMatch : Bool) (state : RunState)
    (hrefs : List (List Char)) (deps : MainDeps) : Except PyErr RunResult :=
  if hrefs.isEmpty then .error .runtimeError
  else
    match escolher_link_mais_recente hrefs with
    | .error e => .error e
    | .ok link_pdf =>
      let linkc := link_pdf_completo link_pdf
      if sendOnlyIfNew = true ∧ state.last_link = some linkc then
        .ok ⟨[], .unchangedLink⟩
      else
        match baixar_pdf deps.resp with
        | .error e => .error e
        | .ok fr =>
          let pdf_hash := deps.sha fr.bytes
          if sendOnlyIfNew = true ∧ state.last_sha256 = some pdf_hash then
            .ok ⟨[.fetch, .save ⟨some linkc, some pdf_hash⟩], .unchangedContent⟩
          else
            let texto := deps.render fr.written
            let trecho := extrair_entre texto "Nomear".data "Procurador-Geral de Justiça".data
            let achou := contem_concurso_publico texto
            let tem_match := trecho.isSome || achou
            if sendOnlyIfMatch = true ∧ tem_match = false then
              .ok ⟨[.fetch, .save ⟨some linkc, some pdf_hash⟩], .noMatch⟩
            else
              if deps.emailOk then
                .ok ⟨[.fetch, .email, .save ⟨some linkc, some pdf_hash⟩], .notified⟩
              else .error .runtimeError

/-! ## extract_pdf_urls_from_html (Edition Locator) -/

/-- The characters excluded by the regex class `[^\"'<>\s]`. -/
def isUrlBadChar (c : Char) : Bool :=
  c == '"' || c == '\'' || c == '<' || c == '>' || isPySpace c

/-- Lazy middle of `PRE[^\"'<>\s]+?SUF`: starting after the prefix, find
the minimal `k ≥ 1` such that the first `k` characters are all allowed and
the (lowercased) suffix follows.  `none` when a forbidden character is hit
first or the input ends. -/
def lazyScanAux (bad : Char → Bool) (sufLow : List Char) : List Char → Nat → Option Nat
  | [], _ => none
  | c :: t, acc =>
    if bad c then none
    else if sufLow.isPrefixOf (lowList t) then some (acc + 1)
    else lazyScanAux bad sufLow t (acc + 1)

/-- Try to match `PRE MIDDLE SUF` anchored at `l` for one literal prefix
alternative (`preLow` and `sufLow` lowercased; the match is
case-insensitive).  Returns the matched slice of the original text and the
rest of the input after it. -/
def stepMatchOne (preLow : List Char) (bad : Char → Bool) (sufLow : List Char)
    (l : List Char) : Option (List Char × List Char) :=
  if preLow.isPrefixOf (lowList l) then
    match lazyScanAux bad sufLow (l.drop preLow.length) 0 with
    | some k =>
      let total := preLow.length + k + sufLow.length
      some (l.take total, l.drop total)
    | none => none
  else none

/-- Alternative literal prefixes tried in order (models `https?`). -/
def stepMatchAlts (presLow : List (List Char)) (bad : Char → Bool) (sufLow : List Char)
    (l : List Char) : Option (List Char × List Char) :=
  match presLow with
  | [] => none
  | p :: ps =>
    match stepMatchOne p bad sufLow l with
    | some r => some r
    | none => stepMatchAlts ps bad sufLow l

/-- `re.finditer`: leftmost, non-overlapping matches.  `fuel` only forces
structural termination; every step consumes at least one character, so
`fuel = l.length` gives the full scan. -/
def finditerAux (step : List Char → Option (List Char × List Char)) :
    Nat → List Char → List (List Char)
  | 0, _ => []
  | _ + 1, [] => []
  | fuel + 1, c :: t =>
    match step (c :: t) with
    | some (m, rest) => m :: finditerAux step fuel rest
    | none => finditerAux step fuel t

def finditer (step : List Char → Option (List Char × List Char)) (l : List Char) :
    List (List Char) :=
  finditerAux step l.length l

/-- Pass 1 regex: `(/servicos/download/[^\"'<>\s]+?\.pdf)`, IGNORECASE. -/
def relStep : List Char → Option (List Char × List Char) :=
  stepMatchAlts ["/servicos/download/".data] isUrlBadChar ".pdf".data

/-- Pass 2 regex:
`(https?://www\.mprr\.mp\.br/servicos/download/[^\"'<>\s]+?\.pdf)`, IGNORECASE. -/
def absStep : List Char → Option (List Char × List Char) :=
  stepMatchAlts
    ["https://www.mprr.mp.br/servicos/download/".data,
     "http://www.mprr.mp.br/servicos/download/".data]
    isUrlBadChar ".pdf".data

/-- `set.add`: membership-checked accumulation.  (The Python `set` has
arbitrary iteration order; the result below is only consumed by `sorted`,
which makes the order irrelevant.) -/
def setAdd (l : List (List Char)) (x : List Char) : List (List Char) :=
  if x ∈ l then l else l ++ [x]

/-- The `urls` set of `extract_pdf_urls_from_html` after both regex
passes: site-relative matches prefixed with the host, plus absolute
matches. -/
def scanned_urls (raw_html : List Char) : List (List Char) :=
  let html_norm := normalize_html_for_pdf_search raw_html
  let rel := (finditer relStep html_norm).map
    (fun m => "https://www.mprr.mp.br".data ++ m)
  let abs := finditer absStep html_norm
  (rel ++ abs).foldl setAdd []

/-- Model of `extract_pdf_urls_from_html` (scan_ultima_nomeacao.py): both
scan passes into a set, then keep URLs containing `diario` and `mprr`
(lowercased) unless that empties the set, then `sorted(...)`. -/
def extract_pdf_urls_from_html (raw_html : List Char) : List (List Char) :=
  let urls := scanned_urls raw_html
  let filtered := urls.filter
    (fun u => containsSub "diario".data (lowList u) &&
      containsSub "mprr".data (lowList u))
  List.insertionSort strLeR (if filtered.isEmpty then urls else filtered)

/-! ## extract_names_from_nomeacao_block (Name Heuristic) -/

/-- The regex class `[A-ZÁÉÍÓÚÂÊÔÃÕÇ]`. -/
def nameClass (c : Char) : Bool :=
  ('A' ≤ c && c ≤ 'Z') || "ÁÉÍÓÚÂÊÔÃÕÇ".data.contains c

/-- `re.sub(r"\s+", " ", s)`: collapse every whitespace run to one space.
`fuel ≥ s.length` gives the full scan. -/
def collapseWsAux : Nat → List Char → List Char
  | 0, s => s
  | _ + 1, [] => []
  | fuel + 1, c :: t =>
    if isPySpace c then ' ' :: collapseWsAux fuel (t.dropWhile isPySpace)
    else c :: collapseWsAux fuel t

def collapseWs (s : List Char) : List Char := collapseWsAux s.length s

/-- Greedy repetitions of `(?:\s+[CLASS]{2,})` (at most `n`) against a
whitespace-collapsed string: each repetition is one space plus a maximal
class-run of length ≥ 2.  Returns the length of each repetition. -/
def takeReps : Nat → List Char → List Nat
  | 0, _ => []
  | n + 1, u =>
    match u with
    | ' ' :: v =>
      let k := (v.takeWhile nameClass).length
      if 2 ≤ k then (1 + k) :: takeReps n (v.drop k) else []
    | _ => []

def wordCharAtHead : List Char → Bool
  | [] => false
  | c :: _ => isWordChar c

/-- Match `[CLASS]{2,}(?:\s+[CLASS]{2,}){1,6}\b` anchored at `u` (the
leading `\b` is checked by the caller).  The first word and each
repetition word are maximal class runs (a shorter run would be followed by
a class character, failing both `\s+` and the final `\b`); the greedy
repetition count backtracks by dropping the final repetition when the
character after it is a word character (for every earlier repetition the
next character is the following repetition's space, so only the last one
can fail `\b`). -/
def tryNameMatch (u : List Char) : Option Nat :=
  let k1 := (u.takeWhile nameClass).length
  if k1 < 2 then none
  else
    let reps := takeReps 6 (u.drop k1)
    if reps.isEmpty then none
    else
      let total := k1 + reps.sum
      if wordCharAtHead (u.drop total) = false then some total
      else
        let reps2 := reps.dropLast
        if reps2.isEmpty then none
        else some (k1 + reps2.sum)

/-- `re.findall` of the name pattern: scan left to right, requiring a word
boundary (`prevWord = false`) before a match; continue after each match.
`fuel ≥ u.length` gives the full scan. -/
def nameFindAux : Nat → Bool → List Char → List (List Char)
  | 0, _, _ => []
  | _ + 1, _, [] => []
  | fuel + 1, prevWord, c :: t =>
    if prevWord = false ∧ nameClass c = true then
      match tryNameMatch (c :: t) with
      | some L => (c :: t).take L :: nameFindAux fuel true ((c :: t).drop L)
      | none => nameFindAux fuel (isWordChar c) t
    else nameFindAux fuel (isWordChar c) t

/-- The `seen`-set deduplication loop at the end of
`extract_names_from_nomeacao_block`. -/
def dedupKeepFirst (seen : List (List Char)) : List (List Char) → List (List Char)
  | [] => []
  | n :: t =>
    if seen.contains n then dedupKeepFirst seen t
    else n :: dedupKeepFirst (n :: seen) t

/-- The stop-word set of `extract_names_from_nomeacao_block` (the Python
set literal lists `PÚBLICO` twice; a set keeps one). -/
def nomeacaoStop : List (List Char) :=
  ["NOMEAR".data, "PROCURADOR".data, "GERAL".data, "JUSTIÇA".data,
   "MINISTÉRIO".data, "PÚBLICO".data, "ESTADO".data, "RORAIMA".data,
   "CONCURSO".data, "IV".data]

/-- Model of `extract_names_from_nomeacao_block` (scan_ultima_nomeacao.py):
collapse whitespace, `findall` runs of two to seven uppercase words,
discard stop-words and candidates with two or more stop-word tokens,
de-duplicate keeping first occurrences. -/
def extract_names_from_nomeacao_block (block : List Char) : List (List Char) :=
  let s := collapseWs block
  let candidates := nameFindAux s.length false s
  let out := candidates.filter (fun c =>
    !(nomeacaoStop.contains c) &&
      decide (((c.splitOn ' ').filter (fun w => nomeacaoStop.contains w)).length < 2))
  dedupKeepFirst [] out

/-! ## pdf_has_relevant_nomeacao (Clause Matcher) -/

/-- The dict returned by `pdf_has_relevant_nomeacao` for a hit:
`{"page": str(page.page_number), "snippet": snippet.strip(), "names": ...}`. -/
structure NomeacaoHit where
  page : List Char
  snippet : List Char
  names : List Char
deriving DecidableEq, Repr

def natToStr (n : Nat) : List Char := (toString n).data

/-- Page loop of `pdf_has_relevant_nomeacao`.  `pages` is the per-page
text produced by the pdfplumber collaborator (`page.extract_text() or ""`),
`pageNo` the 1-based number of the first page in `pages`. -/
def pdf_relevant_aux : List (List Char) → Nat → Option NomeacaoHit
  | [], _ => none
  | text :: rest, pageNo =>
    let low := lowList text
    if containsSub "nomear".data low = false then pdf_relevant_aux rest (pageNo + 1)
    else if containsSub "iv concurso público".data low = false then
      pdf_relevant_aux rest (pageNo + 1)
    else
      let snippet := (extract_between text "Nomear".data
        "Procurador-Geral de Justiça".data).getD text
      let names := extract_names_from_nomeacao_block snippet
      some ⟨natToStr pageNo, pyStrip snippet,
        if names.isEmpty then "(não consegui extrair nomes com segurança)".data
        else List.intercalate ", ".data names⟩

/-- Model of `pdf_has_relevant_nomeacao` (scan_ultima_nomeacao.py): return
a hit for the first page whose lowercased text contains both `nomear` and
the target-cohort keyword `iv concurso público`; the snippet is the
`Nomear … Procurador-Geral de Justiça` span when present, else the whole
page. -/
def pdf_has_relevant_nomeacao (pages : List (List Char)) : Option NomeacaoHit :=
  pdf_relevant_aux pages 1

/-! ### Theorems -/

theorem strLe_refl : ∀ u, strLe u u = true := by
  intro u
  induction u with
  | nil => rfl
  | cons a s ih => rw [strLe, if_neg (by omega), if_neg (by omega)]; exact ih

theorem strLe_total : ∀ u v, strLe u v = true ∨ strLe v u = true := by
  intro u
  induction u with
  | nil => intro v; left; rfl
  | cons a s ih =>
    intro v
    cases v with
    | nil => right; rfl
    | cons b t =>
      rcases Nat.lt_trichotomy a.toNat b.toNat with h | h | h
      · left; rw [strLe, if_pos h]
      · rw [strLe, strLe, if_neg (by omega), if_neg (by omega), if_neg (by omega),
          if_neg (by omega)]
        exact ih t
      · right; rw [strLe, if_pos h]

theorem strLe_trans : ∀ u v w, strLe u v = true → strLe v w = true → strLe u w = true := by
  intro u
  induction u with
  | nil => intro v w _ _; rfl
  | cons a s ih =>
    intro v w h1 h2
    cases v with
    | nil => simp [strLe] at h1
    | cons b t =>
      cases w with
      | nil => simp [strLe] at h2
      | cons c r =>
        rw [strLe] at h1 h2 ⊢
        split_ifs at h1 h2 ⊢ <;>
          first
            | rfl
            | omega
            | exact ih t r h1 h2

theorem candLe_refl (c : Cand) : candLe c c = true := by
  simp [candLe, strLe_refl]

theorem candLe_total (c d : Cand) : candLe c d = true ∨ candLe d c = true := by
  unfold candLe
  by_cases hb : c.1.isNone = d.1.isNone
  · rw [if_pos hb, if_pos hb.symm]
    by_cases ht : dtKey (c.1.getD dtMin) = dtKey (d.1.getD dtMin)
    · rw [if_pos ht, if_pos ht.symm]; exact strLe_total c.2 d.2
    · rw [if_neg ht, if_neg (Ne.symm ht)]
      simp only [decide_eq_true_eq]
      omega
  · rw [if_neg hb, if_neg (Ne.symm hb)]
    cases hc : c.1.isNone <;> cases hd : d.1.isNone <;> simp_all

theorem candLeInnerP_trans (t1 t2 t3 : Nat) (s1 s2 s3 : List Char)
    (h1 : if t1 = t2 then strLe s1 s2 = true else t1 < t2)
    (h2 : if t2 = t3 then strLe s2 s3 = true else t2 < t3) :
    (if t1 = t3 then strLe s1 s3 = true else t1 < t3) := by
  split_ifs at h1 h2 ⊢ <;> first | exact strLe_trans _ _ _ h1 h2 | omega

theorem candLe_trans (c d e : Cand) (h1 : candLe c d = true) (h2 : candLe d e = true) :
    candLe c e = true := by
  unfold candLe at h1 h2 ⊢
  cases hc : c.1.isNone <;> cases hd : d.1.isNone <;> cases he : e.1.isNone <;>
    simp [hc, hd, he] at h1 h2 ⊢ <;>
      exact candLeInnerP_trans _ _ _ _ _ _ h1 h2

/-- Every element of a pairwise-sorted list is related to its last
element (for a reflexive relation). -/
theorem pairwise_rel_getLast {α : Type _} {r : α → α → Prop} (hrefl : ∀ x, r x x) :
    ∀ (l : List α) (a : α), l.Pairwise r → l.getLast? = some a → ∀ x ∈ l, r x a := by
  intro l
  induction l with
  | nil => intro a _ hl; simp at hl
  | cons b t ih =>
    intro a hp hl x hx
    cases t with
    | nil =>
      simp [List.getLast?] at hl
      rcases List.mem_singleton.mp hx with rfl
      rw [← hl]; exact hrefl x
    | cons c u =>
      rw [List.getLast?_cons_cons] at hl
      rcases List.mem_cons.mp hx with rfl | hx'
      · exact (List.pairwise_cons.mp hp).1 a (List.mem_of_getLast?_eq_some hl)
      · exact ih a (List.pairwise_cons.mp hp).2 hl x hx'

/-- If the pattern does not occur in `s`, the replacement scan leaves `s`
unchanged (any fuel). -/
theorem pyReplaceAux_of_not_contains (old rep : List Char) :
    ∀ (fuel : Nat) (s : List Char), containsSub old s = false →
      pyReplaceAux old rep fuel s = s := by
  intro fuel
  induction fuel with
  | zero => intro s _; cases s <;> rfl
  | succ n ih =>
    intro s h
    cases s with
    | nil => rfl
    | cons c t =>
      rw [containsSub, Bool.or_eq_false_iff] at h
      rw [pyReplaceAux, if_neg (by simp [h.1]), ih t h.2]

/-- If the pattern does not occur in `s`, `pyReplace` leaves `s` unchanged. -/
theorem pyReplace_of_not_contains (old rep : List Char) (s : List Char)
    (h : containsSub old s = false) : pyReplace old rep s = s :=
  pyReplaceAux_of_not_contains old rep s.length s h

/-- Claim C6 (counterexample): the Link Normalizer is not idempotent.
On the three-character input backslash-backslash-slash a first pass yields
backslash-slash, which a second pass rewrites again to a single slash. -/
theorem C6_counterexample :
    normalize_html_for_pdf_search
        (normalize_html_for_pdf_search "\\\\/".data) ≠
      normalize_html_for_pdf_search "\\\\/".data := by
  decide

/-- Claim C6 (amended): the Link Normalizer is idempotent on every input
whose one-pass output no longer contains any of the three escape patterns
it rewrites; it is not idempotent in general (see `C6_counterexample`). -/
theorem C6_theorem (x : List Char)
    (h1 : containsSub "\\u002F".data (normalize_html_for_pdf_search x) = false)
    (h2 : containsSub "\\u002f".data (normalize_html_for_pdf_search x) = false)
    (h3 : containsSub "\\/".data (normalize_html_for_pdf_search x) = false) :
    normalize_html_for_pdf_search (normalize_html_for_pdf_search x) =
      normalize_html_for_pdf_search x := by
  conv_lhs => rw [normalize_html_for_pdf_search]
  rw [pyReplace_of_not_contains _ _ _ h1, pyReplace_of_not_contains _ _ _ h2,
    pyReplace_of_not_contains _ _ _ h3]

/-- Witness for C6: a concrete escaped URL fragment on which the amended
idempotence statement applies. -/
theorem C6_witness :
    normalize_html_for_pdf_search
        (normalize_html_for_pdf_search "a\\u002Fb\\/c".data) =
      normalize_html_for_pdf_search "a\\u002Fb\\/c".data :=
  C6_theorem "a\\u002Fb\\/c".data (by decide) (by decide) (by decide)

/-! ### Recency Resolver lemmas -/

theorem build_candidatos_sound :
    ∀ (hrefs : List (List Char)) (cs : List Cand), build_candidatos hrefs = .ok cs →
      ∀ c ∈ cs, c.2 ∈ hrefs ∧ parse_timestamp_from_href c.2 = .ok c.1 := by
  intro hrefs
  induction hrefs with
  | nil =>
    intro cs h c hc
    rw [build_candidatos] at h
    injection h with h'
    subst h'
    exact absurd hc (List.not_mem_nil _)
  | cons a t ih =>
    intro cs h c hc
    rw [build_candidatos] at h
    revert h
    cases hp : parse_timestamp_from_href a with
    | error e => exact fun h => Except.noConfusion h
    | ok ts =>
      cases hb : build_candidatos t with
      | error e => exact fun h => Except.noConfusion h
      | ok rest =>
        intro h
        injection h with h'
        subst h'
        rcases List.mem_cons.mp hc with rfl | hc'
        · exact ⟨List.mem_cons_self _ _, hp⟩
        · have hrec := ih rest hb c hc'
          exact ⟨List.mem_cons_of_mem _ hrec.1, hrec.2⟩

theorem build_candidatos_complete :
    ∀ (hrefs : List (List Char)) (cs : List Cand), build_candidatos hrefs = .ok cs →
      ∀ h ∈ hrefs, ∃ ts, parse_timestamp_from_href h = .ok ts ∧ (ts, h) ∈ cs := by
  intro hrefs
  induction hrefs with
  | nil => intro cs _ h hmem; exact absurd hmem (List.not_mem_nil _)
  | cons a t ih =>
    intro cs hcs h hmem
    rw [build_candidatos] at hcs
    revert hcs
    cases hp : parse_timestamp_from_href a with
    | error e => exact fun hcs => Except.noConfusion hcs
    | ok ts =>
      cases hb : build_candidatos t with
      | error e => exact fun hcs => Except.noConfusion hcs
      | ok rest =>
        intro hcs
        injection hcs with h'
        subst h'
        rcases List.mem_cons.mp hmem with rfl | hmem'
        · exact ⟨ts, hp, List.mem_cons_self _ _⟩
        · rcases ih rest hb h hmem' with ⟨ts', hts', hmem''⟩
          exact ⟨ts', hts', List.mem_cons_of_mem _ hmem''⟩

theorem build_candidatos_of_all_none :
    ∀ hrefs : List (List Char),
      (∀ h ∈ hrefs, parse_timestamp_from_href h = .ok none) →
      build_candidatos hrefs = .ok (hrefs.map (fun h => ((none : Option PyDateTime), h))) := by
  intro hrefs
  induction hrefs with
  | nil => intro _; rfl
  | cons a t ih =>
    intro hall
    rw [build_candidatos, hall a (List.mem_cons_self _ _),
      ih (fun h hm => hall h (List.mem_cons_of_mem _ hm))]
    rfl

/-- Claim C2: whenever the candidate set contains at least one link with a
parsed timestamp and at least one without, `escolher_link_mais_recente`
returns a link from the set that has a parsed timestamp (an
un-timestamped link is never selected over a timestamped one), and the
returned link's timestamp is maximal among all parsed timestamps. -/
theorem C2_theorem (hrefs : List (List Char)) (r h0 h1 : List Char) (t0 : PyDateTime)
    (hr : escolher_link_mais_recente hrefs = .ok r)
    (hm0 : h0 ∈ hrefs) (hp0 : parse_timestamp_from_href h0 = .ok (some t0))
    (hm1 : h1 ∈ hrefs) (hp1 : parse_timestamp_from_href h1 = .ok none) :
    ∃ tr, r ∈ hrefs ∧ parse_timestamp_from_href r = .ok (some tr) ∧
      dtKey t0 ≤ dtKey tr := by
  unfold escolher_link_mais_recente at hr
  revert hr
  cases hb : build_candidatos hrefs with
  | error e => exact fun hr => Except.noConfusion hr
  | ok cs =>
    intro hr
    dsimp only at hr
    have hmem0 : ((some t0, h0) : Cand) ∈ cs := by
      rcases build_candidatos_complete hrefs cs hb h0 hm0 with ⟨ts, hts, hmem⟩
      rw [hts] at hp0
      injection hp0 with h'
      rw [← h']
      exact hmem
    have hmem0s : ((some t0, h0) : Cand) ∈ List.insertionSort candLeR cs :=
      (List.perm_insertionSort candLeR cs).mem_iff.mpr hmem0
    have hmem0c : ((some t0, h0) : Cand) ∈
        (List.insertionSort candLeR cs).filter (fun c => c.1.isSome) :=
      List.mem_filter.mpr ⟨hmem0s, rfl⟩
    cases hg : ((List.insertionSort candLeR cs).filter (fun c => c.1.isSome)).getLast? with
    | none =>
      rw [List.getLast?_eq_none_iff] at hg
      rw [hg] at hmem0c
      exact absurd hmem0c (List.not_mem_nil _)
    | some cmax =>
      rw [hg] at hr
      injection hr with h'
      subst h'
      have hcm : cmax ∈ (List.insertionSort candLeR cs).filter (fun c => c.1.isSome) :=
        List.mem_of_getLast?_eq_some hg
      have hcs : cmax ∈ List.insertionSort candLeR cs := (List.mem_filter.mp hcm).1
      have hsome : cmax.1.isSome = true := (List.mem_filter.mp hcm).2
      have hcsrc := build_candidatos_sound hrefs cs hb cmax
        ((List.perm_insertionSort candLeR cs).mem_iff.mp hcs)
      rcases Option.isSome_iff_exists.mp hsome with ⟨tr, htr⟩
      have hsort : (List.insertionSort candLeR cs).Pairwise candLeR := by
        haveI : IsTotal Cand candLeR := ⟨fun a b => candLe_total a b⟩
        haveI : IsTrans Cand candLeR := ⟨fun a b c => candLe_trans a b c⟩
        exact List.sorted_insertionSort candLeR cs
      have hcomp := List.Pairwise.filter (R := candLeR) (fun c => c.1.isSome) hsort
      have hle : candLeR (some t0, h0) cmax :=
        pairwise_rel_getLast (fun x => candLe_refl x) _ cmax hcomp hg _ hmem0c
      refine ⟨tr, hcsrc.1, by rw [hcsrc.2, htr], ?_⟩
      unfold candLeR candLe at hle
      rw [htr] at hle
      simp at hle
      split_ifs at hle with h <;> omega

/-- Witness data for claims about the resolver. -/
theorem C2_witness :
    ∃ tr,
      "a-2024-01-01-00-00-00.pdf".data ∈
        ["a-2024-01-01-00-00-00.pdf".data, "b.pdf".data] ∧
      parse_timestamp_from_href "a-2024-01-01-00-00-00.pdf".data = .ok (some tr) ∧
      dtKey ⟨2024, 1, 1, 0, 0, 0⟩ ≤ dtKey tr :=
  C2_theorem ["a-2024-01-01-00-00-00.pdf".data, "b.pdf".data]
    "a-2024-01-01-00-00-00.pdf".data "a-2024-01-01-00-00-00.pdf".data "b.pdf".data
    ⟨2024, 1, 1, 0, 0, 0⟩ (by decide) (by decide) (by decide) (by decide) (by decide)

/-- Claim C7 (counterexample): with candidates `["b", "a"]`, neither of
which has a timestamp, the resolver returns `"a"` — the last encountered —
although `"b"` is lexicographically greater; reordering the same candidate
set changes the selection. -/
theorem C7_counterexample :
    escolher_link_mais_recente ["b".data, "a".data] = .ok "a".data ∧
    escolher_link_mais_recente ["a".data, "b".data] = .ok "b".data ∧
    strLt "a".data "b".data = true := by
  refine ⟨by decide, by decide, by decide⟩

/-- Claim C7 (amended): when no candidate has a parsed timestamp the
resolver returns the last element of the input list, so the selection
depends on the encounter order, not on the lexicographic tie-break. -/
theorem C7_theorem (hrefs : List (List Char)) (l : List Char)
    (hl : hrefs.getLast? = some l)
    (hnone : ∀ h ∈ hrefs, parse_timestamp_from_href h = .ok none) :
    escolher_link_mais_recente hrefs = .ok l := by
  unfold escolher_link_mais_recente
  rw [build_candidatos_of_all_none hrefs hnone]
  have hfil : ((List.insertionSort candLeR
      (hrefs.map (fun h => ((none : Option PyDateTime), h)))).filter
        (fun c => c.1.isSome)) = [] := by
    rw [List.filter_eq_nil_iff]
    intro c hc
    have hcs : c ∈ hrefs.map (fun h => ((none : Option PyDateTime), h)) :=
      (List.perm_insertionSort candLeR _).mem_iff.mp hc
    rcases List.mem_map.mp hcs with ⟨h, _, rfl⟩
    simp
  dsimp only
  rw [hfil, hl]
  rfl

/-- Witness for C7: on a concrete timestamp-free candidate list the
resolver returns the last element. -/
theorem C7_witness :
    escolher_link_mais_recente ["y".data, "x".data] = .ok "x".data :=
  C7_theorem ["y".data, "x".data] "x".data (by rfl) (by decide)

/-- Claim C10: whatever value `escolher_link_mais_recente` returns is an
element of its input list (it never fabricates a URL), and on the empty
list the `hrefs[-1]` fallback raises `IndexError`. -/
theorem C10_theorem :
    (∀ (hrefs : List (List Char)) (r : List Char),
        escolher_link_mais_recente hrefs = .ok r → r ∈ hrefs) ∧
      escolher_link_mais_recente [] = .error .indexError := by
  constructor
  · intro hrefs r hr
    unfold escolher_link_mais_recente at hr
    revert hr
    cases hb : build_candidatos hrefs with
    | error e => exact fun hr => Except.noConfusion hr
    | ok cs =>
      intro hr
      dsimp only at hr
      cases hg : ((List.insertionSort candLeR cs).filter (fun c => c.1.isSome)).getLast? with
      | some cmax =>
        rw [hg] at hr
        injection hr with h'
        subst h'
        have hcm := List.mem_of_getLast?_eq_some hg
        have hcs := (List.mem_filter.mp hcm).1
        exact (build_candidatos_sound hrefs cs hb cmax
          ((List.perm_insertionSort candLeR cs).mem_iff.mp hcs)).1
      | none =>
        rw [hg] at hr
        dsimp only at hr
        revert hr
        cases hlast : hrefs.getLast? with
        | some h =>
          intro hr
          injection hr with h'
          subst h'
          exact List.mem_of_getLast?_eq_some hlast
        | none => exact fun hr => Except.noConfusion hr
  · rfl

/-- Witness for C10 at a concrete input. -/
theorem C10_witness : "a".data ∈ ["a".data] :=
  C10_theorem.1 ["a".data] "a".data (by decide)

/-- Claim C5: for a response that passes `raise_for_status`, the Document
Fetcher fails with the validation error (the specification's
`NotADocumentError`) exactly when the declared content type contains
`text/html` or the payload does not begin with `%PDF` — in particular even
when the status is 200 — and on success it returns exactly the response
bytes, writing exactly those bytes to the local file.  The same holds for
the scanner's `download_pdf`. -/
theorem C5_theorem (resp : HttpResp) (hs : resp.status < 400) :
    (baixar_pdf resp = .error .notADocument ↔
      (containsSub "text/html".data (lowList (resp.contentTypeHeader.getD [])) = true ∨
        pdfMagic.isPrefixOf resp.content = false)) ∧
    (∀ fr, baixar_pdf resp = .ok fr →
      fr.bytes = resp.content ∧ fr.written = resp.content) ∧
    (download_pdf resp = .error .notADocument ↔
      (containsSub "text/html".data (lowList (resp.contentTypeHeader.getD [])) = true ∨
        pdfMagic.isPrefixOf resp.content = false)) ∧
    (∀ b, download_pdf resp = .ok b → b = resp.content) := by
  have h400 : ¬(400 ≤ resp.status) := by omega
  unfold baixar_pdf download_pdf
  rw [if_neg h400, if_neg h400]
  by_cases h1 : containsSub "text/html".data (lowList (resp.contentTypeHeader.getD [])) = true
  · simp [h1]
  · by_cases h2 : pdfMagic.isPrefixOf resp.content = true
    · simp [h1, h2]
    · simp [h1, h2]

/-- Witness for C5: a status-200 response whose content type is
`text/html` is rejected with the validation error. -/
theorem C5_witness :
    baixar_pdf ⟨200, some "text/html".data, [37, 80, 68, 70]⟩ = .error .notADocument :=
  ((C5_theorem ⟨200, some "text/html".data, [37, 80, 68, 70]⟩ (by decide)).1).mpr
    (Or.inl (by decide))

/-- Claim C8: with `SEND_ONLY_IF_NEW` set and the selected URL equal to the
stored `last_link`, the run reports Unchanged-Link and performs no side
effect at all: the Document Fetcher is not invoked and no e-mail is sent. -/
theorem C8_theorem (sendOnlyIfMatch : Bool) (state : RunState)
    (hrefs : List (List Char)) (deps : MainDeps) (lp : List Char) (r : RunResult)
    (hsel : escolher_link_mais_recente hrefs = .ok lp)
    (hlast : state.last_link = some (link_pdf_completo lp))
    (hrun : mainRun true sendOnlyIfMatch state hrefs deps = .ok r) :
    r = ⟨[], .unchangedLink⟩ ∧ Event.fetch ∉ r.events ∧ Event.email ∉ r.events := by
  cases hrefs with
  | nil =>
    rw [show escolher_link_mais_recente [] = .error .indexError from rfl] at hsel
    exact Except.noConfusion hsel
  | cons a t =>
    unfold mainRun at hrun
    rw [if_neg (by simp)] at hrun
    rw [hsel] at hrun
    dsimp only at hrun
    rw [if_pos ⟨rfl, hlast⟩] at hrun
    injection hrun with h'
    rw [← h']
    exact ⟨rfl, by simp, by simp⟩

/-- Witness for C8 at concrete inputs. -/
theorem C8_witness :
    (⟨[], Outcome.unchangedLink⟩ : RunResult) = ⟨[], .unchangedLink⟩ ∧
      Event.fetch ∉ (⟨[], Outcome.unchangedLink⟩ : RunResult).events ∧
      Event.email ∉ (⟨[], Outcome.unchangedLink⟩ : RunResult).events :=
  C8_theorem false ⟨some "x.pdf".data, none⟩ ["x.pdf".data]
    ⟨⟨200, some "application/pdf".data, pdfMagic⟩, fun _ => [], fun _ => "h".data, true⟩
    "x.pdf".data ⟨[], .unchangedLink⟩ (by decide) (by decide) (by rfl)

/-- Claim C3: with `SEND_ONLY_IF_NEW` set, a selected URL different from
the stored one, and the downloaded content hashing to the stored
fingerprint, the run sends no e-mail and overwrites the persisted state
with the current URL and current fingerprint before ending
(Unchanged-Content). -/
theorem C3_theorem (sendOnlyIfMatch : Bool) (state : RunState)
    (hrefs : List (List Char)) (deps : MainDeps) (lp : List Char)
    (fr : FetchResult) (r : RunResult)
    (hsel : escolher_link_mais_recente hrefs = .ok lp)
    (hdiff : state.last_link ≠ some (link_pdf_completo lp))
    (hfetch : baixar_pdf deps.resp = .ok fr)
    (hsha : state.last_sha256 = some (deps.sha fr.bytes))
    (hrun : mainRun true sendOnlyIfMatch state hrefs deps = .ok r) :
    r = ⟨[.fetch, .save ⟨some (link_pdf_completo lp), some (deps.sha fr.bytes)⟩],
        .unchangedContent⟩ ∧ Event.email ∉ r.events := by
  cases hrefs with
  | nil =>
    rw [show escolher_link_mais_recente [] = .error .indexError from rfl] at hsel
    exact Except.noConfusion hsel
  | cons a t =>
    unfold mainRun at hrun
    rw [if_neg (by simp)] at hrun
    rw [hsel] at hrun
    dsimp only at hrun
    rw [if_neg (fun hc => hdiff hc.2)] at hrun
    rw [hfetch] at hrun
    dsimp only at hrun
    rw [if_pos ⟨rfl, hsha⟩] at hrun
    injection hrun with h'
    rw [← h']
    exact ⟨rfl, by simp⟩

/-- Witness for C3 at concrete inputs. -/
theorem C3_witness :
    (⟨[.fetch, .save ⟨some "x.pdf".data, some "h".data⟩], Outcome.unchangedContent⟩ :
        RunResult) =
      ⟨[.fetch, .save ⟨some (link_pdf_completo "x.pdf".data), some "h".data⟩],
        .unchangedContent⟩ ∧
    Event.email ∉ (⟨[.fetch, .save ⟨some "x.pdf".data, some "h".data⟩],
        Outcome.unchangedContent⟩ : RunResult).events :=
  C3_theorem true ⟨some "old".data, some "h".data⟩ ["x.pdf".data]
    ⟨⟨200, some "application/pdf".data, pdfMagic⟩, fun _ => [], fun _ => "h".data, true⟩
    "x.pdf".data ⟨pdfMagic, "application/pdf".data, pdfMagic⟩
    ⟨[.fetch, .save ⟨some "x.pdf".data, some "h".data⟩], .unchangedContent⟩
    (by decide) (by decide) (by decide) (by decide) (by rfl)

/-- Claim C9: `load_state` never raises — an unreadable or absent state
file yields the empty state — and a run starting from the empty state can
never be suppressed by the stored-link or stored-fingerprint comparison:
its outcome is neither Unchanged-Link nor Unchanged-Content. -/
theorem C9_theorem (disk : Except PyErr (Option RunState))
    (hd : (∃ e, disk = .error e) ∨ disk = .ok none) :
    load_state disk = emptyRunState ∧
    ∀ (sn sm : Bool) (hrefs : List (List Char)) (deps : MainDeps) (r : RunResult),
      mainRun sn sm (load_state disk) hrefs deps = .ok r →
        r.outcome ≠ .unchangedLink ∧ r.outcome ≠ .unchangedContent := by
  have hload : load_state disk = emptyRunState := by
    rcases hd with ⟨e, rfl⟩ | rfl <;> rfl
  refine ⟨hload, ?_⟩
  intro sn sm hrefs deps r hrun
  rw [hload] at hrun
  unfold mainRun at hrun
  split at hrun
  · exact absurd hrun (by simp)
  · revert hrun
    cases hsel : escolher_link_mais_recente hrefs with
    | error e => exact fun hrun => Except.noConfusion hrun
    | ok lp =>
      intro hrun
      dsimp only at hrun
      rw [if_neg (by simp [emptyRunState])] at hrun
      revert hrun
      cases hfetch : baixar_pdf deps.resp with
      | error e => exact fun hrun => Except.noConfusion hrun
      | ok fr =>
        intro hrun
        dsimp only at hrun
        rw [if_neg (by simp [emptyRunState])] at hrun
        split at hrun
        · injection hrun with h'
          rw [← h']
          exact ⟨fun h => Outcome.noConfusion h, fun h => Outcome.noConfusion h⟩
        · split at hrun
          · injection hrun with h'
            rw [← h']
            exact ⟨fun h => Outcome.noConfusion h, fun h => Outcome.noConfusion h⟩
          · exact absurd hrun (by simp)

/-- Witness for C9 at concrete inputs. -/
theorem C9_witness :
    (⟨[.fetch, .email, .save ⟨some "x.pdf".data, some "h".data⟩], Outcome.notified⟩ :
        RunResult).outcome ≠ .unchangedLink :=
  (((C9_theorem (.error .runtimeError) (Or.inl ⟨.runtimeError, rfl⟩)).2) false false
    ["x.pdf".data]
    ⟨⟨200, some "application/pdf".data, pdfMagic⟩, fun _ => [], fun _ => "h".data, true⟩
    ⟨[.fetch, .email, .save ⟨some "x.pdf".data, some "h".data⟩], .notified⟩ (by rfl)).1

/-- Claim C1 (counterexample): a page whose clause span
`Nomear … Procurador-Geral de Justiça` does not contain the target-cohort
keyword is nevertheless reported as a hit, because the keyword occurs
elsewhere on the page: the keyword test is page-scoped, not span-scoped. -/
theorem C1_counterexample :
    extract_between
        "IV Concurso Público abc Nomear FULANO DE TAL Procurador-Geral de Justiça".data
        "Nomear".data "Procurador-Geral de Justiça".data =
      some "Nomear FULANO DE TAL Procurador-Geral de Justiça".data ∧
    containsSub "iv concurso público".data
      (lowList "Nomear FULANO DE TAL Procurador-Geral de Justiça".data) = false ∧
    (pdf_has_relevant_nomeacao
        ["IV Concurso Público abc Nomear FULANO DE TAL Procurador-Geral de Justiça".data]).isSome
      = true := by
  refine ⟨by decide, by decide, by decide⟩

/-- Claim C1 (amended): the Clause Matcher's target-cohort keyword test is
scoped to the whole page text, not to the matched clause span:
`pdf_has_relevant_nomeacao` reports a hit exactly when some page contains
both `nomear` and the keyword `iv concurso público` (case-insensitively)
anywhere in its text, regardless of whether the keyword falls inside the
extracted span. -/
theorem C1_theorem (pages : List (List Char)) :
    (pdf_has_relevant_nomeacao pages).isSome = true ↔
      ∃ p ∈ pages, containsSub "nomear".data (lowList p) = true ∧
        containsSub "iv concurso público".data (lowList p) = true := by
  have haux : ∀ (ps : List (List Char)) (n : Nat),
      (pdf_relevant_aux ps n).isSome = true ↔
        ∃ p ∈ ps, containsSub "nomear".data (lowList p) = true ∧
          containsSub "iv concurso público".data (lowList p) = true := by
    intro ps
    induction ps with
    | nil => intro n; simp [pdf_relevant_aux]
    | cons text rest ih =>
      intro n
      by_cases h1 : containsSub "nomear".data (lowList text) = true
      · by_cases h2 : containsSub "iv concurso público".data (lowList text) = true
        · simp [pdf_relevant_aux, h1, h2]
        · simp [pdf_relevant_aux, h1, h2, ih (n + 1)]
      · simp [pdf_relevant_aux, h1, ih (n + 1)]
  exact haux pages 1

/-- Witness for C1: a page with the keyword anywhere makes the matcher
report a hit. -/
theorem C1_witness :
    (pdf_has_relevant_nomeacao
        ["como Nomear alguém do IV Concurso Público".data]).isSome = true :=
  (C1_theorem _).mpr
    ⟨"como Nomear alguém do IV Concurso Público".data, by simp, by decide, by decide⟩

/-! ### Edition Locator lemmas -/

theorem foldl_setAdd_nodup :
    ∀ (xs acc : List (List Char)), acc.Nodup → (xs.foldl setAdd acc).Nodup := by
  intro xs
  induction xs with
  | nil => intro acc h; exact h
  | cons x t ih =>
    intro acc h
    rw [List.foldl_cons]
    apply ih
    unfold setAdd
    by_cases hx : x ∈ acc
    · rw [if_pos hx]; exact h
    · rw [if_neg hx]
      rw [List.nodup_append]
      exact ⟨h, List.nodup_singleton x, by simp [hx]⟩

/-- Claim C4: the Edition Locator's output never contains duplicates, is
sorted ascending in the lexicographic order, is non-empty whenever the two
scan passes found any URL, and reverts to the full unfiltered URL set when
the `diario`/`mprr` marker filter would empty it. -/
theorem C4_theorem (raw : List Char) :
    (extract_pdf_urls_from_html raw).Nodup ∧
    List.Sorted strLeR (extract_pdf_urls_from_html raw) ∧
    (scanned_urls raw ≠ [] → extract_pdf_urls_from_html raw ≠ []) ∧
    ((scanned_urls raw).filter
        (fun u => containsSub "diario".data (lowList u) &&
          containsSub "mprr".data (lowList u)) = [] →
      (extract_pdf_urls_from_html raw).Perm (scanned_urls raw)) := by
  haveI : IsTotal (List Char) strLeR := ⟨fun a b => strLe_total a b⟩
  haveI : IsTrans (List Char) strLeR := ⟨fun a b c => strLe_trans a b c⟩
  have hnodup : (scanned_urls raw).Nodup := by
    unfold scanned_urls
    exact foldl_setAdd_nodup _ [] List.nodup_nil
  unfold extract_pdf_urls_from_html
  dsimp only
  by_cases hf : ((scanned_urls raw).filter
      (fun u => containsSub "diario".data (lowList u) &&
        containsSub "mprr".data (lowList u))).isEmpty
  · rw [if_pos hf]
    refine ⟨(List.perm_insertionSort strLeR _).symm.nodup hnodup,
      List.sorted_insertionSort strLeR _, ?_, ?_⟩
    · intro hne hout
      have hperm := List.perm_insertionSort strLeR (scanned_urls raw)
      rw [hout] at hperm
      exact hne hperm.symm.eq_nil
    · intro _
      exact List.perm_insertionSort strLeR _
  · rw [if_neg hf]
    have hfn : (scanned_urls raw).filter
        (fun u => containsSub "diario".data (lowList u) &&
          containsSub "mprr".data (lowList u)) ≠ [] := by
      intro h
      rw [h] at hf
      exact hf rfl
    refine ⟨(List.perm_insertionSort strLeR _).symm.nodup (hnodup.filter _),
      List.sorted_insertionSort strLeR _, ?_, ?_⟩
    · intro _ hout
      have hperm := List.perm_insertionSort strLeR ((scanned_urls raw).filter
        (fun u => containsSub "diario".data (lowList u) &&
          containsSub "mprr".data (lowList u)))
      rw [hout] at hperm
      exact hfn hperm.symm.eq_nil
    · intro hfil
      exact absurd hfil hfn

/-- Witness for C4: a page body containing one relative download link
(which the marker filter would discard, forcing the unfiltered fallback)
still yields a non-empty output. -/
theorem C4_witness : extract_pdf_urls_from_html "/servicos/download/x.pdf".data ≠ [] :=
  ( C4_theorem "/servicos/download/x.pdf".data).2.2.1 (by decide)
